import Mathlib

/-!
Shallow embedding of the per-team SSO migration/restore orchestration engine
(`src/services/migration-service.ts`) of the uniform-collab/sso-migration-sdk
repository, together with theorems checking its natural-language specification.

External effects (the HTTP transport and the filesystem) are modelled as
explicit outcome values supplied to the orchestrator: each network call either
returns a typed response `{status, statusText}` or raises a fault, exactly as
the transport client's contract states.  The embedding additionally records the
list of mutating/inviting network calls issued, so that "no call is made"
properties can be stated.
-/

namespace SsoMigration

/-- `UniformPermission` of `src/types/uniform-api.ts`: a union of string
literals (`'OPT_CREATE_ENRICHMENTS' | … | 'UTM_WRITE'`), modelled as its
underlying string token. -/
abbrev UniformPermission : Type := String

/-- `ProjectRoles` of `src/types/uniform-api.ts`: `roles: string[]`, optional
`customPermissions?: UniformPermission[]`, optional `name?: string`. -/
structure ProjectRoles where
  roles : List String
  customPermissions : Option (List UniformPermission)
  name : Option String
deriving DecidableEq, Repr

/-- `MemberType` of `src/types/uniform-api.ts`: `'member' | 'apiKey'`. -/
inductive MemberType
  | member
  | apiKey
deriving DecidableEq, Repr

/-- `Member` of `src/types/uniform-api.ts`: `subject`, `name`, `email`,
optional `picture?`, `isTeamAdmin`, `projects: Record<string, ProjectRoles>`
(modelled as an association list in entry order), `type`, `memberSince`. -/
structure Member where
  subject : String
  name : String
  email : String
  picture : Option String
  isTeamAdmin : Bool
  projects : List (String × ProjectRoles)
  type : MemberType
  memberSince : String
deriving DecidableEq, Repr

/-- `BackupOptions` of `src/types/uniform-api.ts`: `{enabled, path}`. -/
structure BackupOptions where
  enabled : Bool
  path : String
deriving DecidableEq, Repr

/-- `MigrationOptions` of `migration-service.ts`. -/
structure MigrationOptions where
  markObsolete : Bool
  deleteMembers : Bool
  dryRun : Bool
  backup : BackupOptions
  ignoredEmails : List String
deriving DecidableEq, Repr

/-- `defaultIgnoredEmails` of `MigrationService` (the commented-out entry is
disabled in the source: the list is empty). -/
def defaultIgnoredEmails : List String := []

/-- The `MigrationService` constructor: the effective options merge the
supplied `ignoredEmails` with the default list. -/
def mkServiceOptions (options : MigrationOptions) : MigrationOptions :=
  { options with ignoredEmails := options.ignoredEmails ++ defaultIgnoredEmails }

/-- `MigrationResult` of `migration-service.ts`. -/
structure MigrationResult where
  teamId : String
  membersFound : Nat
  membersMarkedObsolete : Nat
  membersDeleted : Nat
  invitationsSent : Nat
  skippedMembers : Nat
  backupCreated : Bool
  backupPath : Option String
  errors : List String
deriving DecidableEq, Repr

/-- The freshly initialised result at the top of `migrateTeam`. -/
def initMigrationResult (teamId : String) : MigrationResult :=
  { teamId := teamId
    membersFound := 0
    membersMarkedObsolete := 0
    membersDeleted := 0
    invitationsSent := 0
    skippedMembers := 0
    backupCreated := false
    backupPath := none
    errors := [] }

/-- The `{status, statusText}` part of the transport client's `ApiResponse`. -/
structure ApiResp where
  status : Nat
  statusText : String
deriving DecidableEq, Repr

/-- Outcome of one transport call: a typed response, or a raised fault
(connectivity-level failure with no response). -/
inductive CallOutcome
  | resp (r : ApiResp)
  | fault (msg : String)
deriving DecidableEq, Repr

/-- The transport outcomes a single member's processing can encounter:
outcomes for `updateMember`, `deleteMember` and `inviteMember`. -/
structure MemberEnv where
  updateOutcome : CallOutcome
  deleteOutcome : CallOutcome
  inviteOutcome : CallOutcome
deriving DecidableEq, Repr

/-- A mutating or inviting network call issued through the transport client,
recorded with the affected member's email. -/
inductive NetCall
  | update (email : String)
  | delete (email : String)
  | invite (email : String)
deriving DecidableEq, Repr

/-- Whether a `NetCall` is an `updateMember` call. -/
def NetCall.isUpdate : NetCall → Bool
  | .update _ => true
  | _ => false

/-- The success test the source applies to every mutating/inviting response:
`response.status >= 200 && response.status < 300`. -/
def isSuccessStatus (s : Nat) : Bool :=
  decide (200 ≤ s ∧ s < 300)

/-- Result of one member-level step: the updated `MigrationResult`, the network
calls issued, and the raised fault if the step raised. -/
structure StepOut where
  res : MigrationResult
  calls : List NetCall
  fault : Option String
deriving DecidableEq, Repr

/-- The lower-cased character sequence of a string: comparing `lowercase`
values is comparing the results of `toLowerCase()` (string equality is
character-sequence equality). -/
def lowercase (s : String) : List Char :=
  s.data.map Char.toLower

/-- `shouldIgnoreMember`: case-insensitive membership of the member's email in
the ignore list. -/
def shouldIgnoreMember (opts : MigrationOptions) (member : Member) : Bool :=
  opts.ignoredEmails.any (fun email => lowercase email == lowercase member.email)

/-- The renamed display name used by the mark-as-obsolete operation. -/
def obsoleteName (member : Member) : String :=
  "OBSOLETE - " ++ member.name

/-- `markMemberAsObsolete`: in dry-run, increment the counter with no call; in
live mode issue `updateMember`, increment only on a success status, otherwise
append one error; a raised fault propagates to the caller. -/
def markMemberAsObsolete (opts : MigrationOptions) (member : Member)
    (outcome : CallOutcome) (result : MigrationResult) : StepOut :=
  if opts.dryRun then
    ⟨{ result with membersMarkedObsolete := result.membersMarkedObsolete + 1 }, [], none⟩
  else
    match outcome with
    | .fault msg => ⟨result, [.update member.email], some msg⟩
    | .resp r =>
      if isSuccessStatus r.status then
        ⟨{ result with membersMarkedObsolete := result.membersMarkedObsolete + 1 },
          [.update member.email], none⟩
      else
        ⟨{ result with errors := result.errors ++
            ["Failed to mark " ++ member.email ++ " as obsolete: " ++ r.statusText] },
          [.update member.email], none⟩

/-- `sendNewInvitation`: in dry-run, increment the counter with no call; in
live mode issue `inviteMember`, increment only on a success status, otherwise
append one error; a raised fault propagates to the caller. -/
def sendNewInvitation (opts : MigrationOptions) (member : Member)
    (outcome : CallOutcome) (result : MigrationResult) : StepOut :=
  if opts.dryRun then
    ⟨{ result with invitationsSent := result.invitationsSent + 1 }, [], none⟩
  else
    match outcome with
    | .fault msg => ⟨result, [.invite member.email], some msg⟩
    | .resp r =>
      if isSuccessStatus r.status then
        ⟨{ result with invitationsSent := result.invitationsSent + 1 },
          [.invite member.email], none⟩
      else
        ⟨{ result with errors := result.errors ++
            ["Failed to send invitation to " ++ member.email ++ ": " ++ r.statusText] },
          [.invite member.email], none⟩

/-- `deleteMember`: in dry-run, increment the counter with no call; in live
mode issue `deleteMember`, increment only on a success status, otherwise append
one error; a raised fault propagates to the caller. -/
def deleteMember (opts : MigrationOptions) (member : Member)
    (outcome : CallOutcome) (result : MigrationResult) : StepOut :=
  if opts.dryRun then
    ⟨{ result with membersDeleted := result.membersDeleted + 1 }, [], none⟩
  else
    match outcome with
    | .fault msg => ⟨result, [.delete member.email], some msg⟩
    | .resp r =>
      if isSuccessStatus r.status then
        ⟨{ result with membersDeleted := result.membersDeleted + 1 },
          [.delete member.email], none⟩
      else
        ⟨{ result with errors := result.errors ++
            ["Failed to delete " ++ member.email ++ ": " ++ r.statusText] },
          [.delete member.email], none⟩

/-- `processMember`: delete if `deleteMembers`, else mark obsolete if
`markObsolete`; then always re-invite — unless the mutate step raised, in which
case the fault propagates before the invitation is attempted. -/
def processMember (opts : MigrationOptions) (member : Member) (env : MemberEnv)
    (result : MigrationResult) : StepOut :=
  if opts.deleteMembers then
    let s1 := deleteMember opts member env.deleteOutcome result
    match s1.fault with
    | some msg => ⟨s1.res, s1.calls, some msg⟩
    | none =>
      let s2 := sendNewInvitation opts member env.inviteOutcome s1.res
      ⟨s2.res, s1.calls ++ s2.calls, s2.fault⟩
  else if opts.markObsolete then
    let s1 := markMemberAsObsolete opts member env.updateOutcome result
    match s1.fault with
    | some msg => ⟨s1.res, s1.calls, some msg⟩
    | none =>
      let s2 := sendNewInvitation opts member env.inviteOutcome s1.res
      ⟨s2.res, s1.calls ++ s2.calls, s2.fault⟩
  else
    sendNewInvitation opts member env.inviteOutcome result

/-- The per-member loop of `migrateTeam`: skip ignored members (counting them),
process the rest, and convert a member-level fault into one
`"Error processing member …"` entry before continuing with the next member. -/
def processMembers (opts : MigrationOptions) (env : Member → MemberEnv) :
    List Member → MigrationResult → MigrationResult × List NetCall
  | [], result => (result, [])
  | member :: rest, result =>
    if shouldIgnoreMember opts member then
      processMembers opts env rest
        { result with skippedMembers := result.skippedMembers + 1 }
    else
      let s := processMember opts member (env member) result
      let result2 :=
        match s.fault with
        | some msg =>
          { s.res with errors := s.res.errors ++
              ["Error processing member " ++ member.email ++ ": " ++ msg] }
        | none => s.res
      let next := processMembers opts env rest result2
      (next.1, s.calls ++ next.2)

/-- Outcome of the initial `getMembers` fetch: a typed response carrying the
member list, or a raised transport fault. -/
inductive FetchOutcome
  | resp (r : ApiResp) (data : List Member)
  | fault (msg : String)
deriving DecidableEq, Repr

/-- Outcome of `backupMembers` seen from `migrateTeam`: a success carrying the
written path, a returned failure carrying an error message, or a raised
fault. -/
inductive BackupOutcome
  | succeeded (path : String)
  | failed (err : String)
  | raised (msg : String)
deriving DecidableEq, Repr

/-- The abort message pushed when backup fails while deletion is live. -/
def abortMsg : String :=
  "Migration aborted because backup failed and delete members is enabled"

/-- `migrateTeam`: fetch, backup gate, then the per-member loop; returns the
accumulated `MigrationResult` together with every mutating/inviting call
issued. -/
def migrateTeam (opts : MigrationOptions) (teamId : String)
    (fetch : FetchOutcome) (backup : BackupOutcome) (env : Member → MemberEnv) :
    MigrationResult × List NetCall :=
  let result := initMigrationResult teamId
  match fetch with
  | .fault msg =>
    ({ result with errors := result.errors ++
        ["Error migrating team " ++ teamId ++ ": " ++ msg] }, [])
  | .resp r members =>
    if r.status ≠ 200 then
      ({ result with errors := result.errors ++
          ["Failed to get members: " ++ r.statusText] }, [])
    else
      let found := { result with membersFound := members.length }
      if opts.backup.enabled && decide (0 < members.length) then
        match backup with
        | .succeeded p =>
          processMembers opts env members
            { found with backupCreated := true, backupPath := some p }
        | .failed err =>
          let failedRes := { found with
            backupCreated := false
            backupPath := none
            errors := found.errors ++ ["Failed to create backup: " ++ err] }
          if opts.deleteMembers && !opts.dryRun then
            ({ failedRes with errors := failedRes.errors ++ [abortMsg] }, [])
          else
            processMembers opts env members failedRes
        | .raised msg =>
          let raisedRes := { found with
            errors := found.errors ++ ["Error creating backup: " ++ msg] }
          if opts.deleteMembers && !opts.dryRun then
            ({ raisedRes with errors := raisedRes.errors ++ [abortMsg] }, [])
          else
            processMembers opts env members raisedRes
      else
        processMembers opts env members found

/-- `RestoreResult` of `restoreFromBackup`. -/
structure RestoreResult where
  success : Bool
  membersRestored : Nat
  errors : List String
deriving DecidableEq, Repr

/-- Outcome of loading the backup file inside `restoreFromBackup`: the file is
absent, reading/parsing raised, or a member list was obtained. -/
inductive LoadOutcome
  | notFound
  | raised (msg : String)
  | loaded (members : List Member)
deriving DecidableEq, Repr

/-- The live-mode per-member loop of `restoreFromBackup`: skip ignored members
(without counting), invite the rest — handing `sendNewInvitation` a fresh
throwaway `MigrationResult`, exactly as the source does — then count the member
as restored whenever no fault was raised; a raised fault appends one
`"Error restoring member …"` entry and the loop continues. -/
def restoreLoop (opts : MigrationOptions) (teamId : String)
    (env : Member → MemberEnv) :
    List Member → RestoreResult → RestoreResult × List NetCall
  | [], result => (result, [])
  | member :: rest, result =>
    if shouldIgnoreMember opts member then
      restoreLoop opts teamId env rest result
    else
      let s := sendNewInvitation opts member (env member).inviteOutcome
        (initMigrationResult teamId)
      match s.fault with
      | some msg =>
        let result2 := { result with errors := result.errors ++
            ["Error restoring member " ++ member.email ++ ": " ++ msg] }
        let next := restoreLoop opts teamId env rest result2
        (next.1, s.calls ++ next.2)
      | none =>
        let next := restoreLoop opts teamId env rest
          { result with membersRestored := result.membersRestored + 1 }
        (next.1, s.calls ++ next.2)

/-- `restoreFromBackup`: fail on a missing or unreadable file, short-circuit
with success in dry-run, else run the live loop and set `success` to
`membersRestored > 0`. -/
def restoreFromBackup (opts : MigrationOptions) (teamId : String)
    (backupFilePath : String) (load : LoadOutcome) (env : Member → MemberEnv) :
    RestoreResult × List NetCall :=
  let result : RestoreResult := { success := false, membersRestored := 0, errors := [] }
  match load with
  | .notFound =>
    ({ result with errors := result.errors ++
        ["Backup file not found: " ++ backupFilePath] }, [])
  | .raised msg =>
    ({ result with errors := result.errors ++
        ["Error restoring from backup: " ++ msg] }, [])
  | .loaded members =>
    if opts.dryRun then
      ({ result with success := true }, [])
    else
      let lp := restoreLoop opts teamId env members result
      ({ lp.1 with success := decide (0 < lp.1.membersRestored) }, lp.2)

/-- The JSON documents `backupMembers` writes with `JSON.stringify` and
`restoreFromBackup` reads with `JSON.parse`, at the abstract-syntax level (the
concrete text encoding belongs to the external JSON library). -/
inductive Json
  | str (s : String)
  | boolean (b : Bool)
  | arr (elems : List Json)
  | obj (fields : List (String × Json))

/-- Serialise a list of strings as a JSON array of strings. -/
def encodeStringList (xs : List String) : Json :=
  .arr (xs.map .str)

/-- Parse a JSON value as a string. -/
def decodeString : Json → Option String
  | .str s => some s
  | _ => none

/-- Parse a list of JSON values as strings. -/
def decodeStrings : List Json → Option (List String)
  | [] => some []
  | j :: rest =>
    match decodeString j, decodeStrings rest with
    | some s, some ss => some (s :: ss)
    | _, _ => none

/-- Parse a JSON value as a list of strings. -/
def decodeStringList : Json → Option (List String)
  | .arr elems => decodeStrings elems
  | _ => none

/-- Serialise `ProjectRoles`; the absent optional fields (`customPermissions`,
`name`) are omitted, as `JSON.stringify` omits `undefined` fields. -/
def ProjectRoles.toJson (p : ProjectRoles) : Json :=
  .obj ([("roles", encodeStringList p.roles)] ++
    (match p.customPermissions with
     | none => []
     | some ps => [("customPermissions", encodeStringList ps)]) ++
    (match p.name with
     | none => []
     | some n => [("name", .str n)]))

/-- Parse `ProjectRoles` back from its serialised form. -/
def ProjectRoles.fromJson : Json → Option ProjectRoles
  | .obj [("roles", r)] =>
    (decodeStringList r).map (fun roles => ⟨roles, none, none⟩)
  | .obj [("roles", r), ("customPermissions", c)] =>
    match decodeStringList r, decodeStringList c with
    | some roles, some ps => some ⟨roles, some ps, none⟩
    | _, _ => none
  | .obj [("roles", r), ("name", .str n)] =>
    (decodeStringList r).map (fun roles => ⟨roles, none, some n⟩)
  | .obj [("roles", r), ("customPermissions", c), ("name", .str n)] =>
    match decodeStringList r, decodeStringList c with
    | some roles, some ps => some ⟨roles, some ps, some n⟩
    | _, _ => none
  | _ => none

/-- Serialise the `type` discriminator. -/
def MemberType.toJson : MemberType → Json
  | .member => .str "member"
  | .apiKey => .str "apiKey"

/-- Parse the `type` discriminator. -/
def MemberType.fromJson : Json → Option MemberType
  | .str "member" => some .member
  | .str "apiKey" => some .apiKey
  | _ => none

/-- Serialise the projects map of one member. -/
def encodeProjects (ps : List (String × ProjectRoles)) : Json :=
  .obj (ps.map (fun pr => (pr.1, ProjectRoles.toJson pr.2)))

/-- Parse the fields of a projects object. -/
def decodeProjectFields : List (String × Json) → Option (List (String × ProjectRoles))
  | [] => some []
  | f :: rest =>
    match ProjectRoles.fromJson f.2, decodeProjectFields rest with
    | some p, some ps => some ((f.1, p) :: ps)
    | _, _ => none

/-- Parse a JSON value as a projects map. -/
def decodeProjects : Json → Option (List (String × ProjectRoles))
  | .obj fields => decodeProjectFields fields
  | _ => none

/-- Serialise one `Member` record; an absent optional `picture` field is
omitted, as `JSON.stringify` omits `undefined` fields. -/
def Member.toJson (m : Member) : Json :=
  .obj ([("subject", .str m.subject),
         ("name", .str m.name),
         ("email", .str m.email)] ++
    (match m.picture with
     | none => []
     | some pic => [("picture", .str pic)]) ++
    [("isTeamAdmin", .boolean m.isTeamAdmin),
     ("projects", encodeProjects m.projects),
     ("type", m.type.toJson),
     ("memberSince", .str m.memberSince)])

/-- Parse one `Member` record back from its serialised form. -/
def Member.fromJson : Json → Option Member
  | .obj [("subject", .str subject),
          ("name", .str name),
          ("email", .str email),
          ("isTeamAdmin", .boolean admin),
          ("projects", projectsJson),
          ("type", typeJson),
          ("memberSince", .str since)] =>
    match decodeProjects projectsJson, MemberType.fromJson typeJson with
    | some projects, some ty =>
      some ⟨subject, name, email, none, admin, projects, ty, since⟩
    | _, _ => none
  | .obj [("subject", .str subject),
          ("name", .str name),
          ("email", .str email),
          ("picture", .str pic),
          ("isTeamAdmin", .boolean admin),
          ("projects", projectsJson),
          ("type", typeJson),
          ("memberSince", .str since)] =>
    match decodeProjects projectsJson, MemberType.fromJson typeJson with
    | some projects, some ty =>
      some ⟨subject, name, email, some pic, admin, projects, ty, since⟩
    | _, _ => none
  | _ => none

/-- Parse a list of JSON values as members. -/
def decodeMemberElems : List Json → Option (List Member)
  | [] => some []
  | j :: rest =>
    match Member.fromJson j, decodeMemberElems rest with
    | some m, some ms => some (m :: ms)
    | _, _ => none

/-- The document `backupMembers` writes: one JSON array of the members exactly
as received from the fetch. -/
def encodeMembers (members : List Member) : Json :=
  .arr (members.map Member.toJson)

/-- The backup file name: `team-<teamId>-backup-<timestamp>.json`. -/
def backupFileName (teamId timestamp : String) : String :=
  "team-" ++ teamId ++ "-backup-" ++ timestamp ++ ".json"

/-- A written backup file: its path and its JSON document. -/
structure BackupFile where
  path : String
  content : Json

/-- `backupMembers` on the successful path: write the serialised member list
to the timestamped path inside the backup directory. -/
def backupMembers (teamId : String) (backupDir timestamp : String)
    (members : List Member) : BackupFile :=
  ⟨backupDir ++ "/" ++ backupFileName teamId timestamp, encodeMembers members⟩

/-- Loading a backup file inside `restoreFromBackup`: parse its JSON document
as a member array; content that is not such an array raises (is `Corrupt`). -/
def loadBackupFile (f : BackupFile) : LoadOutcome :=
  match f.content with
  | .arr elems =>
    match decodeMemberElems elems with
    | some ms => .loaded ms
    | none => .raised "Corrupt backup file"
  | _ => .raised "Corrupt backup file"

/-- `convertMemberProjectsToInvites` of the transport client: `useCustom` is
true iff `customPermissions` is present and non-empty. -/
def convertMemberProjectsToInvites (m : Member) :
    List (String × List String × Option (List String) × Bool) :=
  m.projects.map (fun pr =>
    (pr.1, pr.2.roles, pr.2.customPermissions,
     match pr.2.customPermissions with
     | some (_ :: _) => true
     | _ => false))

/-- The number of fetched members that pass the ignore filter. -/
def countNonIgnored (opts : MigrationOptions) (members : List Member) : Nat :=
  (members.filter (fun m => !shouldIgnoreMember opts m)).length

/-- A concrete member fixture for witnesses. -/
def sampleMember : Member :=
  { subject := "auth0|123"
    name := "Ada"
    email := "ada@example.com"
    picture := none
    isTeamAdmin := false
    projects := [("proj1", ⟨["admin"], some ["OPT_PUBLISH"], some "Project One"⟩)]
    type := .member
    memberSince := "2024-01-01T00:00:00Z" }

/-- A second concrete member fixture, with the optional `picture` field
present. -/
def sampleMember2 : Member :=
  { subject := "auth0|456"
    name := "Grace"
    email := "grace@example.com"
    picture := some "https://example.com/grace.png"
    isTeamAdmin := true
    projects := []
    type := .member
    memberSince := "2024-02-02T00:00:00Z" }

/-- Concrete live-mode options used by witnesses. -/
def liveOptions : MigrationOptions :=
  { markObsolete := true
    deleteMembers := false
    dryRun := false
    backup := ⟨true, "./backups"⟩
    ignoredEmails := [] }

/-- Concrete dry-run options used by witnesses. -/
def dryRunOptions : MigrationOptions :=
  { liveOptions with dryRun := true }

/-- A concrete all-success transport environment. -/
def okEnv : Member → MemberEnv :=
  fun _ => ⟨.resp ⟨200, "OK"⟩, .resp ⟨200, "OK"⟩, .resp ⟨200, "OK"⟩⟩

/-- A concrete transport environment whose invite calls fail with status 500. -/
def inviteFailEnv : Member → MemberEnv :=
  fun _ => ⟨.resp ⟨200, "OK"⟩, .resp ⟨200, "OK"⟩,
            .resp ⟨500, "Internal Server Error"⟩⟩

/-- A concrete transport environment whose invite calls raise a fault. -/
def inviteFaultEnv : Member → MemberEnv :=
  fun _ => ⟨.resp ⟨200, "OK"⟩, .resp ⟨200, "OK"⟩, .fault "socket hang up"⟩

/-- Concrete live options with deletion enabled (and `markObsolete` also
requested, to exercise the delete-wins priority). -/
def deleteLiveOptions : MigrationOptions :=
  { markObsolete := true
    deleteMembers := true
    dryRun := false
    backup := ⟨true, "./backups"⟩
    ignoredEmails := [] }

/-- Concrete options with one ignored email (differing in case from
`sampleMember`'s address). -/
def ignoreOptions : MigrationOptions :=
  { liveOptions with ignoredEmails := ["ADA@Example.COM"] }

/-! ### Helper lemmas -/

/-- A response outcome never raises out of `sendNewInvitation`. -/
theorem sendNewInvitation_resp_fault (opts : MigrationOptions) (member : Member)
    (r : ApiResp) (result : MigrationResult) :
    (sendNewInvitation opts member (.resp r) result).fault = none := by
  unfold sendNewInvitation
  split
  · rfl
  · dsimp only
    split <;> rfl

/-- A response outcome never raises out of `deleteMember`. -/
theorem deleteMember_resp_fault (opts : MigrationOptions) (member : Member)
    (r : ApiResp) (result : MigrationResult) :
    (deleteMember opts member (.resp r) result).fault = none := by
  unfold deleteMember
  split
  · rfl
  · dsimp only
    split <;> rfl

/-- `deleteMember` never touches the obsolete counter and never issues an
update call. -/
theorem deleteMember_no_update (opts : MigrationOptions) (member : Member)
    (outcome : CallOutcome) (result : MigrationResult) :
    (deleteMember opts member outcome result).res.membersMarkedObsolete =
      result.membersMarkedObsolete ∧
    ∀ c ∈ (deleteMember opts member outcome result).calls, c.isUpdate = false := by
  unfold deleteMember
  split
  · simp
  · cases outcome with
    | fault msg => simp [NetCall.isUpdate]
    | resp r =>
      dsimp only
      split <;> simp [NetCall.isUpdate]

/-- `sendNewInvitation` never touches the obsolete counter and never issues an
update call. -/
theorem sendNewInvitation_no_update (opts : MigrationOptions) (member : Member)
    (outcome : CallOutcome) (result : MigrationResult) :
    (sendNewInvitation opts member outcome result).res.membersMarkedObsolete =
      result.membersMarkedObsolete ∧
    ∀ c ∈ (sendNewInvitation opts member outcome result).calls, c.isUpdate = false := by
  unfold sendNewInvitation
  split
  · simp
  · cases outcome with
    | fault msg => simp [NetCall.isUpdate]
    | resp r =>
      dsimp only
      split <;> simp [NetCall.isUpdate]

/-- With deletion enabled, one member's processing never touches the obsolete
counter and never issues an update call. -/
theorem processMember_delete_no_update (opts : MigrationOptions) (member : Member)
    (env : MemberEnv) (result : MigrationResult)
    (hd : opts.deleteMembers = true) :
    (processMember opts member env result).res.membersMarkedObsolete =
      result.membersMarkedObsolete ∧
    ∀ c ∈ (processMember opts member env result).calls, c.isUpdate = false := by
  unfold processMember
  rw [hd]
  simp only [if_true]
  cases hf : (deleteMember opts member env.deleteOutcome result).fault with
  | some msg =>
    simp only [hf]
    exact deleteMember_no_update opts member env.deleteOutcome result
  | none =>
    simp only [hf]
    have h1 := deleteMember_no_update opts member env.deleteOutcome result
    have h2 := sendNewInvitation_no_update opts member env.inviteOutcome
      (deleteMember opts member env.deleteOutcome result).res
    refine ⟨h2.1.trans h1.1, ?_⟩
    intro c hc
    rcases List.mem_append.mp hc with h | h
    · exact h1.2 c h
    · exact h2.2 c h

/-- With deletion enabled, the whole per-member loop never touches the obsolete
counter and never issues an update call. -/
theorem processMembers_delete_no_update (opts : MigrationOptions)
    (env : Member → MemberEnv) (hd : opts.deleteMembers = true) :
    ∀ (ms : List Member) (result : MigrationResult),
      (processMembers opts env ms result).1.membersMarkedObsolete =
        result.membersMarkedObsolete ∧
      ∀ c ∈ (processMembers opts env ms result).2, c.isUpdate = false := by
  intro ms
  induction ms with
  | nil => intro result; simp [processMembers]
  | cons m rest ih =>
    intro result
    by_cases hig : shouldIgnoreMember opts m
    · simpa [processMembers, hig] using ih _
    · have hpm := processMember_delete_no_update opts m (env m) result hd
      simp only [processMembers, hig, Bool.false_eq_true, if_false]
      cases hf : (processMember opts m (env m) result).fault with
      | some msg =>
        simp only [hf]
        have hi := ih { (processMember opts m (env m) result).res with
          errors := (processMember opts m (env m) result).res.errors ++
            ["Error processing member " ++ m.email ++ ": " ++ msg] }
        refine ⟨hi.1.trans hpm.1, ?_⟩
        intro c hc
        rcases List.mem_append.mp hc with h | h
        · exact hpm.2 c h
        · exact hi.2 c h
      | none =>
        simp only [hf]
        have hi := ih (processMember opts m (env m) result).res
        refine ⟨hi.1.trans hpm.1, ?_⟩
        intro c hc
        rcases List.mem_append.mp hc with h | h
        · exact hpm.2 c h
        · exact hi.2 c h

/-! ### Claim theorems -/

/-- C7: if the initial fetch returns a status other than 200, `migrateTeam`
returns immediately with exactly one error `"Failed to get members: <statusText>"`,
`membersFound = 0`, no backup recorded and no mutating or inviting call. -/
theorem migrateTeam_fetch_failure (opts : MigrationOptions) (teamId : String)
    (r : ApiResp) (members : List Member) (backup : BackupOutcome)
    (env : Member → MemberEnv) (hst : r.status ≠ 200) :
    migrateTeam opts teamId (.resp r members) backup env =
      ({ initMigrationResult teamId with
          errors := ["Failed to get members: " ++ r.statusText] }, []) := by
  simp [migrateTeam, hst, initMigrationResult]

/-- Witness for C7 at a concrete 403 response. -/
theorem migrateTeam_fetch_failure_witness :
    migrateTeam liveOptions "team1" (.resp ⟨403, "Forbidden"⟩ [sampleMember])
        (.succeeded "p") okEnv =
      ({ initMigrationResult "team1" with
          errors := ["Failed to get members: Forbidden"] }, []) :=
  migrateTeam_fetch_failure liveOptions "team1" ⟨403, "Forbidden"⟩ [sampleMember]
    (.succeeded "p") okEnv (by decide)

/-- C1: with backup enabled, `deleteMembers = true` and `dryRun = false`, if
the snapshot save is attempted (the member list is non-empty) and returns
failure or raises, `migrateTeam` appends the abort error and returns with no
delete, update or invite call issued for any member. -/
theorem migrateTeam_backup_abort (opts : MigrationOptions) (teamId : String)
    (r : ApiResp) (members : List Member) (bo : BackupOutcome)
    (env : Member → MemberEnv)
    (hb : opts.backup.enabled = true) (hd : opts.deleteMembers = true)
    (hr : opts.dryRun = false) (hst : r.status = 200) (hne : members ≠ [])
    (hfail : (∃ e, bo = .failed e) ∨ (∃ m, bo = .raised m)) :
    (migrateTeam opts teamId (.resp r members) bo env).2 = [] ∧
    abortMsg ∈ (migrateTeam opts teamId (.resp r members) bo env).1.errors := by
  have hlen : 0 < members.length := List.length_pos.mpr hne
  rcases hfail with ⟨e, rfl⟩ | ⟨m, rfl⟩ <;>
    simp [migrateTeam, hb, hd, hr, hst, hlen, initMigrationResult]

/-- Witness for C1: backup save fails on a one-member team in live delete
mode. -/
theorem migrateTeam_backup_abort_witness :
    (migrateTeam deleteLiveOptions "team1" (.resp ⟨200, "OK"⟩ [sampleMember])
        (.failed "disk full") okEnv).2 = [] ∧
    abortMsg ∈ (migrateTeam deleteLiveOptions "team1"
        (.resp ⟨200, "OK"⟩ [sampleMember]) (.failed "disk full") okEnv).1.errors :=
  migrateTeam_backup_abort deleteLiveOptions "team1" ⟨200, "OK"⟩ [sampleMember]
    (.failed "disk full") okEnv rfl rfl rfl rfl (by decide)
    (Or.inl ⟨"disk full", rfl⟩)

/-- C5: a member whose email case-insensitively equals an entry of
`ignoredEmails` contributes exactly one `skippedMembers` increment to the
per-member loop and no mutation or invite call: its whole processing step is
the skip. -/
theorem processMembers_ignored_member (opts : MigrationOptions)
    (env : Member → MemberEnv) (member : Member) (rest : List Member)
    (result : MigrationResult) (e : String)
    (he : e ∈ opts.ignoredEmails) (hmatch : lowercase e = lowercase member.email) :
    processMembers opts env (member :: rest) result =
      processMembers opts env rest
        { result with skippedMembers := result.skippedMembers + 1 } := by
  have hig : shouldIgnoreMember opts member = true := by
    simp only [shouldIgnoreMember, List.any_eq_true, beq_iff_eq]
    exact ⟨e, he, hmatch⟩
  simp [processMembers, hig]

/-- Witness for C5: `sampleMember` is ignored under `ignoreOptions` (the entry
differs from the member's email only in case). -/
theorem processMembers_ignored_member_witness :
    processMembers ignoreOptions okEnv [sampleMember] (initMigrationResult "t") =
      processMembers ignoreOptions okEnv []
        { initMigrationResult "t" with skippedMembers := 0 + 1 } :=
  processMembers_ignored_member ignoreOptions okEnv sampleMember []
    (initMigrationResult "t") "ADA@Example.COM" (by decide) (by decide)

/-- C6: with `deleteMembers = true`, `migrateTeam` never honours
`markObsolete`: the obsolete counter stays 0 and no `updateMember` call is ever
issued, whatever value `markObsolete` was supplied with. -/
theorem migrateTeam_delete_wins (opts : MigrationOptions) (teamId : String)
    (fetch : FetchOutcome) (backup : BackupOutcome) (env : Member → MemberEnv)
    (hd : opts.deleteMembers = true) :
    (migrateTeam opts teamId fetch backup env).1.membersMarkedObsolete = 0 ∧
    (migrateTeam opts teamId fetch backup env).2.filter NetCall.isUpdate = [] := by
  have key : ∀ (ms : List Member) (result : MigrationResult),
      result.membersMarkedObsolete = 0 →
      (processMembers opts env ms result).1.membersMarkedObsolete = 0 ∧
      (processMembers opts env ms result).2.filter NetCall.isUpdate = [] := by
    intro ms result h0
    have h := processMembers_delete_no_update opts env hd ms result
    refine ⟨h.1.trans h0, List.filter_eq_nil_iff.mpr ?_⟩
    intro c hc
    simp [h.2 c hc]
  unfold migrateTeam
  cases fetch with
  | fault msg => simp [initMigrationResult]
  | resp r members =>
    by_cases hst : r.status ≠ 200
    · simp [hst, initMigrationResult]
    · simp only [hst, if_false]
      by_cases hgate : (opts.backup.enabled && decide (0 < members.length)) = true
      · simp only [hgate, if_true]
        cases backup with
        | succeeded p =>
          exact key members _ rfl
        | failed err =>
          by_cases habort : (opts.deleteMembers && !opts.dryRun) = true
          · simp [habort, initMigrationResult]
          · simp only [habort, Bool.false_eq_true, if_false]
            exact key members _ rfl
        | raised msg =>
          by_cases habort : (opts.deleteMembers && !opts.dryRun) = true
          · simp [habort, initMigrationResult]
          · simp only [habort, Bool.false_eq_true, if_false]
            exact key members _ rfl
      · simp only [hgate, Bool.false_eq_true, if_false]
        exact key members _ rfl

/-- Witness for C6: live deletion with `markObsolete` requested still marks
nobody obsolete and issues no update call. -/
theorem migrateTeam_delete_wins_witness :
    (migrateTeam deleteLiveOptions "t" (.resp ⟨200, "OK"⟩ [sampleMember])
        (.succeeded "p") okEnv).1.membersMarkedObsolete = 0 ∧
    (migrateTeam deleteLiveOptions "t" (.resp ⟨200, "OK"⟩ [sampleMember])
        (.succeeded "p") okEnv).2.filter NetCall.isUpdate = [] :=
  migrateTeam_delete_wins deleteLiveOptions "t" (.resp ⟨200, "OK"⟩ [sampleMember])
    (.succeeded "p") okEnv rfl

/-- C2 counterexample: the claim treats every 2xx/3xx status as a success,
but at status 301 (a 3xx) the live mark-obsolete operation does not increment
its counter and instead appends an error: the source tests
`200 <= status < 300`. -/
theorem liveCounter_301_counterexample :
    (markMemberAsObsolete liveOptions sampleMember (.resp ⟨301, "Moved Permanently"⟩)
        (initMigrationResult "t")).res.membersMarkedObsolete = 0 ∧
    (markMemberAsObsolete liveOptions sampleMember (.resp ⟨301, "Moved Permanently"⟩)
        (initMigrationResult "t")).res.errors =
      ["Failed to mark ada@example.com as obsolete: Moved Permanently"] :=
  ⟨rfl, rfl⟩

/-- C2 (amended): in live mode each operation increments its counter exactly
when the response status is 2xx (`200 ≤ status < 300`); any other status —
including 3xx — appends one error string and leaves the counter unchanged. -/
theorem liveResponse_counter_policy (opts : MigrationOptions) (member : Member)
    (r : ApiResp) (result : MigrationResult) (hlive : opts.dryRun = false) :
    ((200 ≤ r.status ∧ r.status < 300) →
      markMemberAsObsolete opts member (.resp r) result =
        ⟨{ result with membersMarkedObsolete := result.membersMarkedObsolete + 1 },
          [.update member.email], none⟩ ∧
      deleteMember opts member (.resp r) result =
        ⟨{ result with membersDeleted := result.membersDeleted + 1 },
          [.delete member.email], none⟩ ∧
      sendNewInvitation opts member (.resp r) result =
        ⟨{ result with invitationsSent := result.invitationsSent + 1 },
          [.invite member.email], none⟩) ∧
    (¬(200 ≤ r.status ∧ r.status < 300) →
      markMemberAsObsolete opts member (.resp r) result =
        ⟨{ result with errors := result.errors ++
            ["Failed to mark " ++ member.email ++ " as obsolete: " ++ r.statusText] },
          [.update member.email], none⟩ ∧
      deleteMember opts member (.resp r) result =
        ⟨{ result with errors := result.errors ++
            ["Failed to delete " ++ member.email ++ ": " ++ r.statusText] },
          [.delete member.email], none⟩ ∧
      sendNewInvitation opts member (.resp r) result =
        ⟨{ result with errors := result.errors ++
            ["Failed to send invitation to " ++ member.email ++ ": " ++ r.statusText] },
          [.invite member.email], none⟩) := by
  constructor
  · intro h
    have hs : isSuccessStatus r.status = true := by
      simp [isSuccessStatus, h.1, h.2]
    simp [markMemberAsObsolete, deleteMember, sendNewInvitation, hlive, hs]
  · intro h
    have hs : isSuccessStatus r.status = false := by
      simp only [isSuccessStatus, decide_eq_false_iff_not]
      exact h
    simp [markMemberAsObsolete, deleteMember, sendNewInvitation, hlive, hs]

/-- Witness for the amended C2: a 201 response increments the obsolete
counter without error, and a 301 response appends an error to the delete
operation without incrementing. -/
theorem liveResponse_counter_policy_witness :
    markMemberAsObsolete liveOptions sampleMember (.resp ⟨201, "Created"⟩)
        (initMigrationResult "t") =
      ⟨{ initMigrationResult "t" with membersMarkedObsolete := 0 + 1 },
        [.update "ada@example.com"], none⟩ ∧
    deleteMember liveOptions sampleMember (.resp ⟨301, "Moved Permanently"⟩)
        (initMigrationResult "t") =
      ⟨{ initMigrationResult "t" with
          errors := ["Failed to delete ada@example.com: Moved Permanently"] },
        [.delete "ada@example.com"], none⟩ :=
  ⟨((liveResponse_counter_policy liveOptions sampleMember ⟨201, "Created"⟩
      (initMigrationResult "t") rfl).1 (by decide)).1,
   ((liveResponse_counter_policy liveOptions sampleMember ⟨301, "Moved Permanently"⟩
      (initMigrationResult "t") rfl).2 (by decide)).2.1⟩

/-- In dry-run mode one member's processing is a pure counter update with no
network call and no fault. -/
theorem processMember_dryRun (opts : MigrationOptions) (member : Member)
    (env : MemberEnv) (result : MigrationResult) (hdr : opts.dryRun = true) :
    processMember opts member env result =
      if opts.deleteMembers then
        ⟨{ result with
            membersDeleted := result.membersDeleted + 1
            invitationsSent := result.invitationsSent + 1 }, [], none⟩
      else if opts.markObsolete then
        ⟨{ result with
            membersMarkedObsolete := result.membersMarkedObsolete + 1
            invitationsSent := result.invitationsSent + 1 }, [], none⟩
      else
        ⟨{ result with invitationsSent := result.invitationsSent + 1 }, [], none⟩ := by
  by_cases hdel : opts.deleteMembers <;> by_cases hmo : opts.markObsolete <;>
    simp [processMember, deleteMember, markMemberAsObsolete, sendNewInvitation,
      hdr, hdel, hmo]

/-- In dry-run mode the loop issues no network calls. -/
theorem processMembers_dryRun_calls (opts : MigrationOptions)
    (env : Member → MemberEnv) (hdr : opts.dryRun = true) :
    ∀ (ms : List Member) (result : MigrationResult),
      (processMembers opts env ms result).2 = [] := by
  intro ms
  induction ms with
  | nil => intro result; simp [processMembers]
  | cons m rest ih =>
    intro result
    by_cases hig : shouldIgnoreMember opts m
    · simp [processMembers, hig, ih]
    · by_cases hdel : opts.deleteMembers <;> by_cases hmo : opts.markObsolete <;>
        simp [processMembers, hig, processMember_dryRun opts m (env m) result hdr,
          hdel, hmo, ih]

/-- In dry-run mode the invitation counter counts the non-ignored members. -/
theorem processMembers_dryRun_sent (opts : MigrationOptions)
    (env : Member → MemberEnv) (hdr : opts.dryRun = true) :
    ∀ (ms : List Member) (result : MigrationResult),
      (processMembers opts env ms result).1.invitationsSent =
        result.invitationsSent + countNonIgnored opts ms := by
  intro ms
  induction ms with
  | nil => intro result; simp [processMembers, countNonIgnored]
  | cons m rest ih =>
    intro result
    by_cases hig : shouldIgnoreMember opts m
    · simp [processMembers, hig, ih, countNonIgnored, List.filter_cons]
    · by_cases hdel : opts.deleteMembers <;> by_cases hmo : opts.markObsolete <;>
        simp [processMembers, hig, processMember_dryRun opts m (env m) result hdr,
          hdel, hmo, ih, countNonIgnored, List.filter_cons] <;> omega

/-- In dry-run delete mode the deletion counter counts the non-ignored
members. -/
theorem processMembers_dryRun_deleted (opts : MigrationOptions)
    (env : Member → MemberEnv) (hdr : opts.dryRun = true)
    (hdel : opts.deleteMembers = true) :
    ∀ (ms : List Member) (result : MigrationResult),
      (processMembers opts env ms result).1.membersDeleted =
        result.membersDeleted + countNonIgnored opts ms := by
  intro ms
  induction ms with
  | nil => intro result; simp [processMembers, countNonIgnored]
  | cons m rest ih =>
    intro result
    by_cases hig : shouldIgnoreMember opts m
    · simp [processMembers, hig, ih, countNonIgnored, List.filter_cons]
    · by_cases hmo : opts.markObsolete <;>
        simp [processMembers, hig, processMember_dryRun opts m (env m) result hdr,
          hdel, hmo, ih, countNonIgnored, List.filter_cons] <;> omega

/-- Without the delete flag, dry-run processing never touches the deletion
counter. -/
theorem processMembers_dryRun_deleted_const (opts : MigrationOptions)
    (env : Member → MemberEnv) (hdr : opts.dryRun = true)
    (hdel : opts.deleteMembers = false) :
    ∀ (ms : List Member) (result : MigrationResult),
      (processMembers opts env ms result).1.membersDeleted =
        result.membersDeleted := by
  intro ms
  induction ms with
  | nil => intro result; simp [processMembers]
  | cons m rest ih =>
    intro result
    by_cases hig : shouldIgnoreMember opts m
    · simp [processMembers, hig, ih]
    · by_cases hmo : opts.markObsolete <;>
        simp [processMembers, hig, processMember_dryRun opts m (env m) result hdr,
          hdel, hmo, ih]

/-- In dry-run mark-obsolete mode (deletion off) the obsolete counter counts
the non-ignored members. -/
theorem processMembers_dryRun_marked (opts : MigrationOptions)
    (env : Member → MemberEnv) (hdr : opts.dryRun = true)
    (hdel : opts.deleteMembers = false) (hmo : opts.markObsolete = true) :
    ∀ (ms : List Member) (result : MigrationResult),
      (processMembers opts env ms result).1.membersMarkedObsolete =
        result.membersMarkedObsolete + countNonIgnored opts ms := by
  intro ms
  induction ms with
  | nil => intro result; simp [processMembers, countNonIgnored]
  | cons m rest ih =>
    intro result
    by_cases hig : shouldIgnoreMember opts m
    · simp [processMembers, hig, ih, countNonIgnored, List.filter_cons]
    · simp [processMembers, hig, processMember_dryRun opts m (env m) result hdr,
        hdel, hmo, ih, countNonIgnored, List.filter_cons]
      omega

/-- Without the mark-obsolete flag, dry-run processing never touches the
obsolete counter. -/
theorem processMembers_dryRun_marked_const (opts : MigrationOptions)
    (env : Member → MemberEnv) (hdr : opts.dryRun = true)
    (hmo : opts.markObsolete = false) :
    ∀ (ms : List Member) (result : MigrationResult),
      (processMembers opts env ms result).1.membersMarkedObsolete =
        result.membersMarkedObsolete := by
  intro ms
  induction ms with
  | nil => intro result; simp [processMembers]
  | cons m rest ih =>
    intro result
    by_cases hig : shouldIgnoreMember opts m
    · simp [processMembers, hig, ih]
    · by_cases hdel : opts.deleteMembers <;>
        simp [processMembers, hig, processMember_dryRun opts m (env m) result hdr,
          hdel, hmo, ih]

/-- In dry-run mode `migrateTeam` (after a successful fetch) is exactly the
per-member loop run from a base result with zeroed counters: the backup gate
never aborts. -/
theorem migrateTeam_dryRun_reduces (opts : MigrationOptions) (teamId : String)
    (r : ApiResp) (members : List Member) (backup : BackupOutcome)
    (env : Member → MemberEnv) (hdr : opts.dryRun = true)
    (hst : r.status = 200) :
    ∃ base, migrateTeam opts teamId (.resp r members) backup env =
        processMembers opts env members base ∧
      base.invitationsSent = 0 ∧ base.membersDeleted = 0 ∧
      base.membersMarkedObsolete = 0 := by
  have habort : (opts.deleteMembers && !opts.dryRun) = false := by
    simp [hdr]
  unfold migrateTeam
  dsimp only
  rw [if_neg (by simp [hst])]
  by_cases hgate : (opts.backup.enabled && decide (0 < members.length)) = true
  · simp only [hgate, if_true]
    cases backup with
    | succeeded p => exact ⟨_, rfl, rfl, rfl, rfl⟩
    | failed err =>
      simp only [habort, Bool.false_eq_true, if_false]
      exact ⟨_, rfl, rfl, rfl, rfl⟩
    | raised msg =>
      simp only [habort, Bool.false_eq_true, if_false]
      exact ⟨_, rfl, rfl, rfl, rfl⟩
  · simp only [hgate, Bool.false_eq_true, if_false]
    exact ⟨_, rfl, rfl, rfl, rfl⟩

/-- C4: a dry-run `migrateTeam` issues zero mutation or invite calls whatever
the fetch and backup outcomes, and after a successful fetch its counters are
those of a simulated all-success pass: every non-ignored fetched member is
counted as invited, as deleted when `deleteMembers` is set, and as marked
obsolete when `markObsolete` is set without `deleteMembers`. -/
theorem migrateTeam_dryRun_simulation (opts : MigrationOptions) (teamId : String)
    (fetch : FetchOutcome) (backup : BackupOutcome)
    (env : Member → MemberEnv) (hdr : opts.dryRun = true) :
    (migrateTeam opts teamId fetch backup env).2 = [] ∧
    ∀ r members, fetch = .resp r members → r.status = 200 →
      (migrateTeam opts teamId fetch backup env).1.invitationsSent =
        countNonIgnored opts members ∧
      (opts.deleteMembers = true →
        (migrateTeam opts teamId fetch backup env).1.membersDeleted =
          countNonIgnored opts members ∧
        (migrateTeam opts teamId fetch backup env).1.membersMarkedObsolete = 0) ∧
      (opts.deleteMembers = false →
        (migrateTeam opts teamId fetch backup env).1.membersDeleted = 0 ∧
        (opts.markObsolete = true →
          (migrateTeam opts teamId fetch backup env).1.membersMarkedObsolete =
            countNonIgnored opts members) ∧
        (opts.markObsolete = false →
          (migrateTeam opts teamId fetch backup env).1.membersMarkedObsolete = 0)) := by
  constructor
  · cases fetch with
    | fault msg => simp [migrateTeam]
    | resp r members =>
      by_cases hst : r.status = 200
      · obtain ⟨base, heq, _, _, _⟩ :=
          migrateTeam_dryRun_reduces opts teamId r members backup env hdr hst
        rw [heq]
        exact processMembers_dryRun_calls opts env hdr members base
      · simp [migrateTeam, hst]
  · intro r members hfe hst
    subst hfe
    obtain ⟨base, heq, hs0, hd0, hm0⟩ :=
      migrateTeam_dryRun_reduces opts teamId r members backup env hdr hst
    rw [heq]
    refine ⟨?_, ?_, ?_⟩
    · rw [processMembers_dryRun_sent opts env hdr members base, hs0, Nat.zero_add]
    · intro hdel
      constructor
      · rw [processMembers_dryRun_deleted opts env hdr hdel members base, hd0,
          Nat.zero_add]
      · exact ((processMembers_delete_no_update opts env hdel members base).1).trans hm0
    · intro hdel
      refine ⟨(processMembers_dryRun_deleted_const opts env hdr hdel members base).trans hd0,
        ?_, ?_⟩
      · intro hmo
        rw [processMembers_dryRun_marked opts env hdr hdel hmo members base, hm0,
          Nat.zero_add]
      · intro hmo
        exact (processMembers_dryRun_marked_const opts env hdr hmo members base).trans hm0

/-- Witness for C4 with two members, one of them ignored, in dry-run
mark-obsolete mode. -/
theorem migrateTeam_dryRun_simulation_witness :
    (migrateTeam dryRunOptions "t"
        (.resp ⟨200, "OK"⟩ [sampleMember, sampleMember2]) (.succeeded "p")
        okEnv).2 = [] ∧
    (migrateTeam dryRunOptions "t"
        (.resp ⟨200, "OK"⟩ [sampleMember, sampleMember2]) (.succeeded "p")
        okEnv).1.invitationsSent =
      countNonIgnored dryRunOptions [sampleMember, sampleMember2] := by
  have h := migrateTeam_dryRun_simulation dryRunOptions "t"
    (.resp ⟨200, "OK"⟩ [sampleMember, sampleMember2]) (.succeeded "p") okEnv rfl
  exact ⟨h.1, (h.2 ⟨200, "OK"⟩ [sampleMember, sampleMember2] rfl rfl).1⟩

/-- C8: `restoreFromBackup`'s success flag: a successful load in dry-run mode
short-circuits to `success = true`, `membersRestored = 0`, no errors and no
calls; in live mode `success` is exactly `membersRestored > 0`, so a loaded
empty member array yields `⟨false, 0, []⟩`. -/
theorem restore_success_flag (opts : MigrationOptions) (teamId p : String)
    (env : Member → MemberEnv) (ms : List Member) :
    (opts.dryRun = true →
      restoreFromBackup opts teamId p (.loaded ms) env = (⟨true, 0, []⟩, [])) ∧
    (opts.dryRun = false →
      (restoreFromBackup opts teamId p (.loaded ms) env).1.success =
        decide (0 < (restoreFromBackup opts teamId p (.loaded ms) env).1.membersRestored)) ∧
    (opts.dryRun = false →
      restoreFromBackup opts teamId p (.loaded []) env = (⟨false, 0, []⟩, [])) := by
  refine ⟨?_, ?_, ?_⟩
  · intro h
    simp [restoreFromBackup, h]
  · intro h
    simp [restoreFromBackup, h]
  · intro h
    simp [restoreFromBackup, restoreLoop, h]

/-- Witness for C8: dry-run short-circuit on a one-member load, and a live
restore of an empty array. -/
theorem restore_success_flag_witness :
    restoreFromBackup dryRunOptions "t" "p" (.loaded [sampleMember]) okEnv =
      (⟨true, 0, []⟩, []) ∧
    restoreFromBackup liveOptions "t" "p" (.loaded []) okEnv =
      (⟨false, 0, []⟩, []) :=
  ⟨(restore_success_flag dryRunOptions "t" "p" okEnv [sampleMember]).1 rfl,
   (restore_success_flag liveOptions "t" "p" okEnv []).2.2 rfl⟩

/-- C3 counterexample: restoring one member whose invite returns status 500
appends NO error to the returned `RestoreResult` (the failure message goes to a
discarded temporary result) and still counts the member as restored, refuting
the claim that a failure-status response appends exactly one error. -/
theorem restore_statusFailure_counterexample :
    (restoreFromBackup liveOptions "t" "b.json" (.loaded [sampleMember])
        inviteFailEnv).1.errors = [] ∧
    (restoreFromBackup liveOptions "t" "b.json" (.loaded [sampleMember])
        inviteFailEnv).1.membersRestored = 1 :=
  ⟨rfl, rfl⟩

/-- C3 (amended): in the live restore loop, a raised invite fault appends
exactly one error for that member and the loop continues with the rest; an
invite that returns a failure-status response appends no error to the returned
result (the member is still counted) and the loop continues. -/
theorem restoreLoop_failure_isolation (opts : MigrationOptions) (teamId : String)
    (env : Member → MemberEnv) (member : Member) (rest : List Member)
    (result : RestoreResult) (msg : String) (r : ApiResp)
    (hlive : opts.dryRun = false) (hig : shouldIgnoreMember opts member = false) :
    ((env member).inviteOutcome = .fault msg →
      restoreLoop opts teamId env (member :: rest) result =
        ((restoreLoop opts teamId env rest
            { result with errors := result.errors ++
                ["Error restoring member " ++ member.email ++ ": " ++ msg] }).1,
         .invite member.email ::
           (restoreLoop opts teamId env rest
             { result with errors := result.errors ++
                 ["Error restoring member " ++ member.email ++ ": " ++ msg] }).2)) ∧
    ((env member).inviteOutcome = .resp r → isSuccessStatus r.status = false →
      restoreLoop opts teamId env (member :: rest) result =
        ((restoreLoop opts teamId env rest
            { result with membersRestored := result.membersRestored + 1 }).1,
         .invite member.email ::
           (restoreLoop opts teamId env rest
             { result with membersRestored := result.membersRestored + 1 }).2)) := by
  constructor
  · intro h
    simp [restoreLoop, hig, sendNewInvitation, hlive, h]
  · intro h hs
    simp [restoreLoop, hig, sendNewInvitation, hlive, h, hs]

/-- Witness for the amended C3: a raised invite fault on a one-member restore
appends exactly one error and the loop continues. -/
theorem restoreLoop_failure_isolation_witness :
    restoreLoop liveOptions "t" inviteFaultEnv [sampleMember] ⟨false, 0, []⟩ =
      ((restoreLoop liveOptions "t" inviteFaultEnv []
          { RestoreResult.mk false 0 [] with errors := [] ++
              ["Error restoring member " ++ sampleMember.email ++ ": " ++ "socket hang up"] }).1,
       .invite sampleMember.email ::
         (restoreLoop liveOptions "t" inviteFaultEnv []
           { RestoreResult.mk false 0 [] with errors := [] ++
               ["Error restoring member " ++ sampleMember.email ++ ": " ++ "socket hang up"] }).2) :=
  (restoreLoop_failure_isolation liveOptions "t" inviteFaultEnv sampleMember []
    ⟨false, 0, []⟩ "socket hang up" ⟨200, "OK"⟩ rfl rfl).1 rfl

/-- C10: in the live restore loop a non-ignored member whose invite call
returns any typed response — success or failure status alike — is counted as
restored and contributes nothing to the returned errors; when the status is a
failure, its error message lands only in the discarded temporary
`MigrationResult`. -/
theorem restoreLoop_counts_nonfault (opts : MigrationOptions) (teamId : String)
    (env : Member → MemberEnv) (member : Member) (rest : List Member)
    (result : RestoreResult) (r : ApiResp)
    (hlive : opts.dryRun = false) (hig : shouldIgnoreMember opts member = false)
    (hresp : (env member).inviteOutcome = .resp r) :
    restoreLoop opts teamId env (member :: rest) result =
      ((restoreLoop opts teamId env rest
          { result with membersRestored := result.membersRestored + 1 }).1,
       .invite member.email ::
         (restoreLoop opts teamId env rest
           { result with membersRestored := result.membersRestored + 1 }).2) ∧
    (isSuccessStatus r.status = false →
      (sendNewInvitation opts member (.resp r) (initMigrationResult teamId)).res.errors =
        ["Failed to send invitation to " ++ member.email ++ ": " ++ r.statusText]) := by
  constructor
  · by_cases hs : isSuccessStatus r.status <;>
      simp [restoreLoop, hig, sendNewInvitation, hlive, hresp, hs]
  · intro hs
    simp [sendNewInvitation, hlive, hs, initMigrationResult]

/-- Witness for C10: one member whose invite returns status 500 is still
counted, with the failure message only in the discarded temporary result. -/
theorem restoreLoop_counts_nonfault_witness :
    restoreLoop liveOptions "t" inviteFailEnv [sampleMember] ⟨false, 0, []⟩ =
      ((restoreLoop liveOptions "t" inviteFailEnv []
          { RestoreResult.mk false 0 [] with membersRestored := 0 + 1 }).1,
       .invite sampleMember.email ::
         (restoreLoop liveOptions "t" inviteFailEnv []
           { RestoreResult.mk false 0 [] with membersRestored := 0 + 1 }).2) ∧
    (isSuccessStatus 500 = false →
      (sendNewInvitation liveOptions sampleMember
          (.resp ⟨500, "Internal Server Error"⟩)
          (initMigrationResult "t")).res.errors =
        ["Failed to send invitation to " ++ sampleMember.email ++ ": " ++
          "Internal Server Error"]) :=
  restoreLoop_counts_nonfault liveOptions "t" inviteFailEnv sampleMember []
    ⟨false, 0, []⟩ ⟨500, "Internal Server Error"⟩ rfl rfl rfl

/-- Decoding inverts string-list encoding. -/
theorem decodeStrings_encode (xs : List String) :
    decodeStrings (xs.map Json.str) = some xs := by
  induction xs with
  | nil => rfl
  | cons x xs ih => simp [decodeStrings, decodeString, ih]

/-- Decoding inverts `encodeStringList`. -/
theorem decodeStringList_encode (xs : List String) :
    decodeStringList (encodeStringList xs) = some xs := by
  simp [decodeStringList, encodeStringList, decodeStrings_encode]

/-- Decoding inverts `ProjectRoles` serialisation. -/
theorem projectRoles_roundtrip (p : ProjectRoles) :
    ProjectRoles.fromJson p.toJson = some p := by
  obtain ⟨roles, perms, pname⟩ := p
  cases perms <;> cases pname <;>
    simp [ProjectRoles.toJson, ProjectRoles.fromJson, decodeStringList_encode]

/-- Decoding inverts the serialisation of a projects map. -/
theorem decodeProjectFields_encode (ps : List (String × ProjectRoles)) :
    decodeProjectFields (ps.map (fun pr => (pr.1, ProjectRoles.toJson pr.2))) =
      some ps := by
  induction ps with
  | nil => rfl
  | cons p ps ih => simp [decodeProjectFields, projectRoles_roundtrip, ih]

set_option maxHeartbeats 1600000 in
/-- Decoding inverts `Member` serialisation. -/
theorem member_roundtrip (m : Member) :
    Member.fromJson m.toJson = some m := by
  obtain ⟨subject, name, email, pic, admin, projects, ty, since⟩ := m
  cases pic <;> cases ty <;>
    simp [Member.toJson, Member.fromJson, MemberType.toJson, MemberType.fromJson,
      encodeProjects, decodeProjects, decodeProjectFields_encode]

/-- Decoding inverts the serialisation of a member array. -/
theorem decodeMemberElems_encode (ms : List Member) :
    decodeMemberElems (ms.map Member.toJson) = some ms := by
  induction ms with
  | nil => rfl
  | cons m ms ih => simp [decodeMemberElems, member_roundtrip, ih]

/-- Loading the file written by `backupMembers` yields exactly the members
that were backed up. -/
theorem loadBackupFile_roundtrip (teamId backupDir timestamp : String)
    (members : List Member) :
    loadBackupFile (backupMembers teamId backupDir timestamp members) =
      .loaded members := by
  simp [loadBackupFile, backupMembers, encodeMembers, decodeMemberElems_encode]

/-- When every member passes the ignore filter and every invite call returns a
typed response, the live restore loop counts every member. -/
theorem restoreLoop_all_resp_count (opts : MigrationOptions) (teamId : String)
    (env : Member → MemberEnv) :
    ∀ (ms : List Member) (result : RestoreResult),
      (∀ m ∈ ms, shouldIgnoreMember opts m = false ∧
        ∃ r, (env m).inviteOutcome = .resp r) →
      (restoreLoop opts teamId env ms result).1.membersRestored =
        result.membersRestored + ms.length := by
  intro ms
  induction ms with
  | nil =>
    intro result _
    simp [restoreLoop]
  | cons m rest ih =>
    intro result h
    obtain ⟨⟨hig, r, hr⟩, hrest⟩ := List.forall_mem_cons.mp h
    have hs := sendNewInvitation_resp_fault opts m r (initMigrationResult teamId)
    have hrec := ih { result with membersRestored := result.membersRestored + 1 } hrest
    simp only [restoreLoop, hig, Bool.false_eq_true, if_false, hr, hs]
    simp [hrec]
    omega

/-- C9: backing up N members (N ≥ 1) and restoring the produced file live with
an empty ignore set restores all N members and reports success, provided every
invite call returns a success status. -/
theorem backup_restore_roundtrip (opts : MigrationOptions)
    (teamId backupDir timestamp : String) (members : List Member)
    (env : Member → MemberEnv)
    (hn : 1 ≤ members.length) (hig : opts.ignoredEmails = [])
    (hlive : opts.dryRun = false)
    (hok : ∀ m ∈ members, ∃ r, (env m).inviteOutcome = .resp r ∧
        isSuccessStatus r.status = true) :
    (restoreFromBackup opts teamId
        (backupMembers teamId backupDir timestamp members).path
        (loadBackupFile (backupMembers teamId backupDir timestamp members))
        env).1.membersRestored = members.length ∧
    (restoreFromBackup opts teamId
        (backupMembers teamId backupDir timestamp members).path
        (loadBackupFile (backupMembers teamId backupDir timestamp members))
        env).1.success = true := by
  rw [loadBackupFile_roundtrip]
  have hcond : ∀ m ∈ members, shouldIgnoreMember opts m = false ∧
      ∃ r, (env m).inviteOutcome = .resp r := by
    intro m hm
    obtain ⟨r, hr, _⟩ := hok m hm
    exact ⟨by simp [shouldIgnoreMember, hig], r, hr⟩
  have hcount := restoreLoop_all_resp_count opts teamId env members
    ⟨false, 0, []⟩ hcond
  constructor
  · simp [restoreFromBackup, hlive, hcount]
  · simp [restoreFromBackup, hlive, hcount]
    omega

/-- Witness for C9: a one-member backup restored against an all-success
transport. -/
theorem backup_restore_roundtrip_witness :
    (restoreFromBackup liveOptions "t"
        (backupMembers "t" "./backups" "2024-01-01" [sampleMember]).path
        (loadBackupFile (backupMembers "t" "./backups" "2024-01-01" [sampleMember]))
        okEnv).1.membersRestored = 1 ∧
    (restoreFromBackup liveOptions "t"
        (backupMembers "t" "./backups" "2024-01-01" [sampleMember]).path
        (loadBackupFile (backupMembers "t" "./backups" "2024-01-01" [sampleMember]))
        okEnv).1.success = true :=
  backup_restore_roundtrip liveOptions "t" "./backups" "2024-01-01" [sampleMember]
    okEnv (by decide) rfl rfl
    (by intro m hm; exact ⟨⟨200, "OK"⟩, rfl, rfl⟩)

end SsoMigration
